import Mathlib

/-!
MIOpen `TargetProperties` (src/target_properties.cpp)

A shallow embedding of `GetDeviceNameFromMap`, `TargetProperties::Init` and
`TargetProperties::InitDbId`, followed by theorems about them.

Modelling conventions
* `std::string` is a Lean `String`, read as its sequence of characters
  (`String.data`); positions are indices into that sequence.
* `std::string::npos` is `none` in an `Option Nat` position or count.
* `boost::optional<bool>` is `Option Bool`: `some true`, `some false`, and
  `none` for the empty optional (the tri-state value "unknown").
* A `const char*` returned by `GetStringEnv` is `Option String`: `none` is
  `nullptr`, `some s` the NUL-terminated text `s`.
* A C++ call that may throw returns `Option`; `none` is the exception.
* Member functions take the object as an explicit argument and return the
  updated object.
-/

namespace miopen

/-! ## The pieces of the standard library the file uses -/

/-- `strlen(p)` for a non-null C string. -/
def strlen (p : String) : Nat := p.data.length

/-- First index `i ≥ start` at which `c` occurs, scanning `l` whose head has index `start`. -/
def find_char_from (c : Char) : List Char → Nat → Option Nat
  | [], _ => none
  | x :: xs, i => if x = c then some i else find_char_from c xs (i + 1)

/-- `s.find(c)` for a character `c`: index of the first occurrence, `none` for `npos`. -/
def find_char (s : String) (c : Char) : Option Nat := find_char_from c s.data 0

/-- First index `i ≥ start` at which `needle` starts in `l`, whose head has index `start`. -/
def find_str_from (needle : List Char) : List Char → Nat → Option Nat
  | [], i => if needle.isPrefixOf [] then some i else none
  | x :: xs, i =>
    if needle.isPrefixOf (x :: xs) then some i else find_str_from needle xs (i + 1)

/-- `s.find(needle)` for a string `needle`: index of the first occurrence, `none` for `npos`. -/
def find_str (s : String) (needle : String) : Option Nat :=
  find_str_from needle.data s.data 0

/-- `s.substr(pos, count)`: throws `std::out_of_range` (`none`) when `pos > size()`,
otherwise the characters `[pos, pos + min(count, size() - pos))`; `count = none` is `npos`. -/
def substr (s : String) (pos : Nat) (count : Option Nat) : Option String :=
  if pos > s.data.length then none
  else
    let rlen := match count with
      | none => s.data.length - pos
      | some n => min n (s.data.length - pos)
    some ⟨(s.data.drop pos).take rlen⟩

/-- `m.find(k)` on a `std::map<std::string, std::string>` given by its entries:
`some v` for `match->second`, `none` for `end()`. -/
def map_find (m : List (String × String)) (k : String) : Option String :=
  m.lookup k

/-! ## The environment and the handle -/

/-- The two environment variables the file declares, as `GetStringEnv` returns them. -/
structure Env where
  MIOPEN_DEBUG_ENFORCE_DEVICE : Option String
  MIOPEN_DEVICE_ARCH : Option String
deriving DecidableEq, Repr

/-- The device handle: only `GetDeviceNameImpl()` is used. -/
structure Handle where
  GetDeviceNameImpl : String
deriving DecidableEq, Repr

/-! ## `GetDeviceNameFromMap` -/

/-- The static `device_name_map` of `GetDeviceNameFromMap`. -/
def device_name_map : List (String × String) :=
  [ ("Ellesmere", "gfx803"),
    ("Baffin", "gfx803"),
    ("RacerX", "gfx803"),
    ("Polaris10", "gfx803"),
    ("Polaris11", "gfx803"),
    ("Tonga", "gfx803"),
    ("Fiji", "gfx803"),
    ("gfx800", "gfx803"),
    ("gfx802", "gfx803"),
    ("gfx804", "gfx803"),
    ("Vega10", "gfx900"),
    ("gfx901", "gfx900"),
    ("10.3.0 Sienna_Cichlid 18", "gfx1030") ]

/-- `GetDeviceNameFromMap(in)`; the input is called `inp` since `in` is a keyword. -/
def GetDeviceNameFromMap (env : Env) (inp : String) : Option String :=
  let p_asciz := env.MIOPEN_DEBUG_ENFORCE_DEVICE
  if p_asciz ≠ none ∧ strlen (p_asciz.getD "") > 0 then
    some (p_asciz.getD "")
  else do
    let name ← substr inp 0 (find_char inp ':')
    match map_find device_name_map name with
    | some second => pure second
    | none => pure name

/-! ## `TargetProperties` -/

/-- Modelled from the spec: the class declaration (target_properties.hpp) is not among
the sources; the data members are those `Init` and `InitDbId` assign, with the types of
section 3 of the specification (two strings and three tri-state flags). -/
structure TargetProperties where
  name : String
  dbId : String
  xnack : Option Bool
  sramecc : Option Bool
  sramecc_reported : Option Bool
deriving DecidableEq, Repr

/-- `TargetProperties::InitDbId()`. -/
def InitDbId (self : TargetProperties) : TargetProperties :=
  let self := { self with dbId := self.name }
  let self :=
    if self.name = "gfx906" ∨ self.name = "gfx908" then
      if self.sramecc.isNone || !(self.sramecc.getD false) then
        { self with dbId := self.dbId ++ "_nosramecc" }
      else self
    else
      if self.sramecc.isSome && self.sramecc.getD false then
        { self with dbId := self.dbId ++ "_sramecc" }
      else self
  if self.xnack.isSome && self.xnack.getD false then
    { self with dbId := self.dbId ++ "_xnack" }
  else self

/-- The `rawName` lambda of `TargetProperties::Init`. -/
def Init.rawName (env : Env) (handle : Handle) : String :=
  let arch := env.MIOPEN_DEVICE_ARCH
  if arch ≠ none ∧ strlen (arch.getD "") > 0 then arch.getD ""
  else handle.GetDeviceNameImpl

/-- `TargetProperties::Init(handle)`. -/
def Init (env : Env) (handle : Handle) (self : TargetProperties) : Option TargetProperties := do
  let rawName := Init.rawName env handle
  let name ← GetDeviceNameFromMap env rawName
  let self := { self with name := name }
  let self := { self with
    sramecc := if self.name = "gfx906" ∨ self.name = "gfx908" then some true else none }
  let self := { self with
    sramecc_reported :=
      if self.name = "gfx900" then none
      else if find_str rawName ":sramecc+" ≠ none then some true
      else if find_str rawName ":sramecc-" ≠ none then some false
      else self.sramecc }
  let self := { self with
    xnack :=
      if find_str rawName ":xnack+" ≠ none then some true
      else if find_str rawName ":xnack-" ≠ none then some false
      else none }
  pure (InitDbId self)

/-- A `TargetProperties` with empty strings and empty optionals, the object the concrete
evaluations start from; `Init` assigns every data member, so the choice does not matter. -/
def TargetProperties.default : TargetProperties :=
  { name := "", dbId := "", xnack := none, sramecc := none, sramecc_reported := none }

/-! ## `MaxWaveScratchSize` -/

/-- The result of an `int` operation (32 bits, two's complement) whose mathematical value
is `v`: `none` when `v` is out of range, which is signed overflow. -/
def int_result (v : Int) : Option Int :=
  if -2 ^ 31 ≤ v ∧ v ≤ 2 ^ 31 - 1 then some v else none

/-- Conversion of an `int` value to a `std::size_t` of `w` bits. -/
def to_size_t (w : Nat) (v : Int) : Nat := (v % 2 ^ w).toNat

/-- The `int` subexpression `(1 << 13) - 1` of `MaxWaveScratchSize`. -/
def MaxWaveScratchSize.mask : Option Int := do
  let shifted ← int_result (1 * 2 ^ 13)
  int_result (shifted - 1)

/-- `TargetProperties::MaxWaveScratchSize`, for a `std::size_t` of `w` bits:
`(static_cast<const std::size_t>(256) * 4) * ((1 << 13) - 1)`, each product taken
modulo `2 ^ w`. -/
def MaxWaveScratchSize (w : Nat) : Option Nat := do
  let mask ← MaxWaveScratchSize.mask
  let scaled := (to_size_t w 256 * to_size_t w 4) % 2 ^ w
  pure ((scaled * to_size_t w mask) % 2 ^ w)

/-! ## The specification's words, for comparison with the code -/

/-- The three tri-state values of the specification. -/
abbrev unknown : Option Bool := none

/-- The part of `raw` before its first `':'`, all of `raw` if it has none (section 4.1, step 2). -/
def beforeColon (raw : String) : String := ⟨raw.data.takeWhile (fun c => c != ':')⟩

/-- The string `raw` contains `marker` as a substring (section 4.2). -/
def Contains (raw marker : String) : Prop := ∃ pre post : String, raw = pre ++ marker ++ post

/-- The Name Resolver of section 4.1 as one total function: the override when non-empty,
otherwise the alias of the part before the first colon, or that part itself. -/
def NameResolver (override : Option String) (raw : String) : String :=
  match override with
  | some o =>
    if o ≠ "" then o
    else (device_name_map.lookup (beforeColon raw)).getD (beforeColon raw)
  | none => (device_name_map.lookup (beforeColon raw)).getD (beforeColon raw)

/-- A name override is absent or empty (section 6). -/
def NoOverride (v : Option String) : Prop := v = none ∨ v = some ""

/-- The architecture suffix of the Key Builder (section 4.3, steps 2 and 3). -/
def KeyBuilder.S (name : String) (sramecc : Option Bool) : String :=
  if name = "gfx906" ∨ name = "gfx908" then
    if sramecc = some false ∨ sramecc = unknown then "_nosramecc" else ""
  else
    if sramecc = some true then "_sramecc" else ""

/-- The xnack suffix of the Key Builder (section 4.3, steps 4 and 5). -/
def KeyBuilder.X (xnack : Option Bool) : String :=
  if xnack = some true then "_xnack" else ""

/-- The Key Builder of section 4.3: the name, then the architecture suffix, then xnack. -/
def KeyBuilder (name : String) (sramecc xnack : Option Bool) : String :=
  name ++ KeyBuilder.S name sramecc ++ KeyBuilder.X xnack

/-- The default sramecc of section 4.2: true for the two architectures, unknown otherwise. -/
def defaultSramecc (name : String) : Option Bool :=
  if name = "gfx906" ∨ name = "gfx908" then some true else unknown

/-- The suffix part of a raw identifier: `":" ++ t` for each token `t`, in order
(glossary, feature suffix). -/
def suffixes : List String → String
  | [] => ""
  | t :: ts => ":" ++ t ++ suffixes ts

/-- A raw identifier built from a device part followed by its suffix tokens (section 4.1). -/
def mkRaw (d : String) (ts : List String) : String := d ++ suffixes ts

/-- The four recognized feature tokens (section 4.2). -/
def featureTokens : List String := ["sramecc+", "sramecc-", "xnack+", "xnack-"]

/-- The string `s` begins with `t`. -/
def BeginsWith (s t : String) : Prop := ∃ post : String, s = t ++ post

/-- The string `s` ends with `t`. -/
def EndsWith (s t : String) : Prop := ∃ pre : String, s = pre ++ t

/-- The name `n` does not end with one of the three suffixes the Key Builder appends. -/
def NoFeatureSuffix (n : String) : Prop :=
  ¬ EndsWith n "_xnack" ∧ ¬ EndsWith n "_sramecc" ∧ ¬ EndsWith n "_nosramecc"

/-- Every text the Key Builder can append to a name: an architecture suffix, then an xnack
suffix, each possibly empty. -/
def keySuffixes : List String :=
  ["", "_xnack", "_sramecc", "_sramecc_xnack", "_nosramecc", "_nosramecc_xnack"]

/-! ## Facts about the standard-library pieces -/

theorem find_char_from_eq (c : Char) (l : List Char) (i : Nat) :
    find_char_from c l i =
      if c ∈ l then some (i + (l.takeWhile (fun x => x != c)).length) else none := by
  induction l generalizing i with
  | nil => simp [find_char_from]
  | cons x xs ih =>
    by_cases h : x = c
    · subst h; simp [find_char_from]
    · have h2 : ¬ c = x := fun e => h e.symm
      simp only [find_char_from, h, if_false, ih, List.mem_cons, h2, false_or]
      split
      · simp [List.takeWhile_cons, h]; omega
      · rfl

theorem take_length_takeWhile {α : Type} (p : α → Bool) (l : List α) :
    l.take (l.takeWhile p).length = l.takeWhile p :=
  (List.prefix_iff_eq_take.1 (List.takeWhile_prefix p)).symm

theorem takeWhile_ne_of_not_mem (c : Char) (l : List Char) (h : c ∉ l) :
    l.takeWhile (fun x => x != c) = l := by
  induction l with
  | nil => rfl
  | cons x xs ih =>
    simp only [List.mem_cons, not_or] at h
    have hx : (x != c) = true := by simpa using fun e => h.1 e.symm
    rw [List.takeWhile_cons, ih h.2]
    simp [hx]

/-- The substring taken by `GetDeviceNameFromMap` is never out of range and is the part
of the input before its first colon. -/
theorem substr_find_char (s : String) :
    substr s 0 (find_char s ':') = some (beforeColon s) := by
  unfold substr find_char beforeColon
  rw [find_char_from_eq]
  by_cases h : ':' ∈ s.data
  · have hle : (s.data.takeWhile (fun x => x != ':')).length ≤ s.data.length :=
      (List.takeWhile_prefix _).length_le
    simp only [h, if_true, Nat.zero_add, Nat.sub_zero, List.drop_zero, Nat.min_eq_left hle,
      take_length_takeWhile, gt_iff_lt, Nat.not_lt_zero, if_false]
  · simp only [h, if_false, Nat.sub_zero, List.drop_zero, List.take_length,
      takeWhile_ne_of_not_mem _ _ h, gt_iff_lt, Nat.not_lt_zero]

theorem find_str_from_ne_none (needle l : List Char) (i : Nat) :
    find_str_from needle l i ≠ none ↔ needle <:+: l := by
  induction l generalizing i with
  | nil => cases needle <;> simp [find_str_from, List.isPrefixOf]
  | cons x xs ih =>
    rw [List.infix_cons_iff]
    by_cases h : needle <+: x :: xs
    · have h2 : needle.isPrefixOf (x :: xs) = true := List.isPrefixOf_iff_prefix.2 h
      simp [find_str_from, h2, h]
    · have h2 : needle.isPrefixOf (x :: xs) = false := by
        cases hb : needle.isPrefixOf (x :: xs)
        · rfl
        · exact absurd (List.isPrefixOf_iff_prefix.1 hb) h
      simp only [find_str_from, h2, h, false_or]
      exact ih (i + 1)

/-- The test `s.find(marker) != npos` holds exactly when `s` contains `marker`. -/
theorem find_str_ne_none (s marker : String) :
    find_str s marker ≠ none ↔ Contains s marker := by
  unfold find_str Contains
  rw [find_str_from_ne_none]
  constructor
  · rintro ⟨a, b, h⟩
    exact ⟨⟨a⟩, ⟨b⟩, String.ext (by simp [h.symm])⟩
  · rintro ⟨a, b, h⟩
    exact ⟨a.data, b.data, by simp [h]⟩

/-! ## Facts about the embedded functions -/

theorem strlen_pos_iff (o : String) : strlen o > 0 ↔ o ≠ "" := by
  unfold strlen
  constructor
  · intro h e
    subst e
    simp at h
  · intro h
    apply List.length_pos.2
    intro e
    exact h (String.ext (by simpa using e))

theorem GetDeviceNameFromMap_eq (env : Env) (raw : String) :
    GetDeviceNameFromMap env raw = some (NameResolver env.MIOPEN_DEBUG_ENFORCE_DEVICE raw) := by
  unfold GetDeviceNameFromMap NameResolver
  have key : (do
      let name ← substr raw 0 (find_char raw ':')
      match map_find device_name_map name with
      | some second => pure second
      | none => pure name) =
      some ((device_name_map.lookup (beforeColon raw)).getD (beforeColon raw)) := by
    rw [substr_find_char]
    simp only [Option.bind_eq_bind, Option.some_bind, map_find]
    cases device_name_map.lookup (beforeColon raw) <;> rfl
  cases h : env.MIOPEN_DEBUG_ENFORCE_DEVICE with
  | none => simpa using key
  | some o =>
    by_cases ho : o = ""
    · subst ho
      simpa [strlen] using key
    · have hp : strlen o > 0 := (strlen_pos_iff o).2 ho
      simp [hp, ho]

theorem InitDbId_fields (self : TargetProperties) :
    (InitDbId self).name = self.name ∧ (InitDbId self).sramecc = self.sramecc ∧
    (InitDbId self).sramecc_reported = self.sramecc_reported ∧
    (InitDbId self).xnack = self.xnack := by
  unfold InitDbId
  simp only
  split <;> split <;> split <;> simp

theorem InitDbId_eq_KeyBuilder (self : TargetProperties) :
    (InitDbId self).dbId = KeyBuilder self.name self.sramecc self.xnack := by
  obtain ⟨name, d, x, s, r⟩ := self
  unfold InitDbId KeyBuilder KeyBuilder.S KeyBuilder.X
  by_cases hn : name = "gfx906" ∨ name = "gfx908" <;>
    rcases s with _ | _ | _ <;> rcases x with _ | _ | _ <;> simp [hn]

theorem lookup_of_mem_of_nodup (m : List (String × String)) (nd : (m.map Prod.fst).Nodup)
    (k v : String) (h : (k, v) ∈ m) : m.lookup k = some v := by
  induction m with
  | nil => simp at h
  | cons e m ih =>
    obtain ⟨a, b⟩ := e
    simp only [List.map_cons, List.nodup_cons] at nd
    rcases List.mem_cons.1 h with h1 | h2
    · cases h1
      simp
    · have hk : k ≠ a := by
        intro e
        exact nd.1 (List.mem_map.2 ⟨(k, v), h2, e⟩)
      have hb : (k == a) = false := by simpa using hk
      rw [List.lookup_cons, hb]
      exact ih nd.2 h2

theorem mem_of_lookup_eq_some (m : List (String × String)) (k v : String)
    (h : m.lookup k = some v) : (k, v) ∈ m := by
  induction m with
  | nil => simp at h
  | cons e m ih =>
    obtain ⟨a, b⟩ := e
    rw [List.lookup_cons] at h
    by_cases hk : k = a
    · subst hk
      simp at h
      subst h
      exact List.mem_cons_self _ _
    · have hb : (k == a) = false := by simpa using hk
      rw [hb] at h
      exact List.mem_cons_of_mem _ (ih h)

theorem lookup_eq_none_of_not_mem (m : List (String × String)) (k : String)
    (h : k ∉ m.map Prod.fst) : m.lookup k = none := by
  cases hl : m.lookup k with
  | none => rfl
  | some v => exact absurd (List.mem_map.2 ⟨(k, v), mem_of_lookup_eq_some m k v hl, rfl⟩) h

theorem device_name_map_nodup : (device_name_map.map Prod.fst).Nodup := by decide

theorem colon_not_mem_beforeColon (raw : String) : ':' ∉ (beforeColon raw).data := by
  unfold beforeColon
  simp only
  generalize raw.data = l
  induction l with
  | nil => simp
  | cons x xs ih =>
    rw [List.takeWhile_cons]
    by_cases hx : x = ':'
    · simp [hx]
    · have hb : (x != ':') = true := by simpa using hx
      simp only [hb, if_true, List.mem_cons, not_or]
      exact ⟨fun e => hx e.symm, ih⟩

theorem takeWhile_ne_split (c : Char) (l : List Char) :
    l = l.takeWhile (fun x => x != c) ∨ ∃ t, l = l.takeWhile (fun x => x != c) ++ c :: t := by
  induction l with
  | nil => exact Or.inl rfl
  | cons x xs ih =>
    rw [List.takeWhile_cons]
    by_cases hx : x = c
    · subst hx
      exact Or.inr ⟨xs, by simp⟩
    · have hb : (x != c) = true := by simpa using hx
      simp only [hb, if_true]
      rcases ih with h | ⟨t, h⟩
      · exact Or.inl (congrArg _ h)
      · exact Or.inr ⟨t, by rw [List.cons_append, ← h]⟩

theorem beforeColon_split (raw : String) :
    raw = beforeColon raw ∨ ∃ t : String, raw = beforeColon raw ++ ":" ++ t := by
  rcases takeWhile_ne_split ':' raw.data with h | ⟨t, h⟩
  · exact Or.inl (String.ext h)
  · refine Or.inr ⟨⟨t⟩, String.ext ?_⟩
    simpa [beforeColon] using h

theorem beforeColon_of_no_colon (p : String) (h : ':' ∉ p.data) : beforeColon p = p :=
  String.ext (takeWhile_ne_of_not_mem ':' p.data h)

theorem NameResolver_of_noOverride (o : Option String) (raw : String) (h : NoOverride o) :
    NameResolver o raw =
      (device_name_map.lookup (beforeColon raw)).getD (beforeColon raw) := by
  rcases h with h | h <;> subst h <;> simp [NameResolver]

theorem NameResolver_of_override (o raw : String) (h : o ≠ "") :
    NameResolver (some o) raw = o := by
  simp [NameResolver, h]

/-- What `Init` computes, field by field: it always returns, and each field of the result
is the value the corresponding lambda of the source returns. -/
theorem Init_spec (env : Env) (handle : Handle) (self : TargetProperties) :
    ∃ d, Init env handle self = some d ∧
      d.name = NameResolver env.MIOPEN_DEBUG_ENFORCE_DEVICE (Init.rawName env handle) ∧
      d.sramecc = (if d.name = "gfx906" ∨ d.name = "gfx908" then some true else none) ∧
      d.sramecc_reported =
        (if d.name = "gfx900" then none
         else if find_str (Init.rawName env handle) ":sramecc+" ≠ none then some true
         else if find_str (Init.rawName env handle) ":sramecc-" ≠ none then some false
         else d.sramecc) ∧
      d.xnack =
        (if find_str (Init.rawName env handle) ":xnack+" ≠ none then some true
         else if find_str (Init.rawName env handle) ":xnack-" ≠ none then some false
         else none) ∧
      d.dbId = KeyBuilder d.name d.sramecc d.xnack := by
  unfold Init
  simp only [GetDeviceNameFromMap_eq, Option.bind_eq_bind, Option.some_bind, Option.pure_def]
  refine ⟨_, rfl, ?_⟩
  rw [InitDbId_eq_KeyBuilder]
  simp only [InitDbId_fields]
  exact ⟨trivial, trivial, trivial, trivial, trivial⟩

/-- `Init` in the specification's words: it always returns, the name is the resolved
name, and the three flags and the key follow sections 4.2 and 4.3, the substring tests
read as `Contains`. -/
theorem Init_contains (env : Env) (handle : Handle) (self : TargetProperties) :
    ∃ d, Init env handle self = some d ∧
      GetDeviceNameFromMap env (Init.rawName env handle) = some d.name ∧
      d.sramecc = defaultSramecc d.name ∧
      (d.name = "gfx900" → d.sramecc_reported = none) ∧
      (d.name ≠ "gfx900" →
        (Contains (Init.rawName env handle) ":sramecc+" → d.sramecc_reported = some true) ∧
        (¬ Contains (Init.rawName env handle) ":sramecc+" →
          Contains (Init.rawName env handle) ":sramecc-" → d.sramecc_reported = some false) ∧
        (¬ Contains (Init.rawName env handle) ":sramecc+" →
          ¬ Contains (Init.rawName env handle) ":sramecc-" →
          d.sramecc_reported = d.sramecc)) ∧
      (Contains (Init.rawName env handle) ":xnack+" → d.xnack = some true) ∧
      (¬ Contains (Init.rawName env handle) ":xnack+" →
        Contains (Init.rawName env handle) ":xnack-" → d.xnack = some false) ∧
      (¬ Contains (Init.rawName env handle) ":xnack+" →
        ¬ Contains (Init.rawName env handle) ":xnack-" → d.xnack = none) ∧
      d.dbId = KeyBuilder d.name d.sramecc d.xnack := by
  obtain ⟨d, hd, hn, hs, hr, hx, hk⟩ := Init_spec env handle self
  have pos : ∀ {m : String}, Contains (Init.rawName env handle) m →
      find_str (Init.rawName env handle) m ≠ none := fun hc => (find_str_ne_none _ _).2 hc
  have neg : ∀ {m : String}, ¬ Contains (Init.rawName env handle) m →
      ¬ find_str (Init.rawName env handle) m ≠ none :=
    fun hc hf => hc ((find_str_ne_none _ _).1 hf)
  refine ⟨d, hd, ?_, hs, ?_, ?_, ?_, ?_, ?_, hk⟩
  · rw [GetDeviceNameFromMap_eq, hn]
  · intro h
    rw [hr, if_pos h]
  · intro h
    rw [if_neg h] at hr
    refine ⟨fun hp => ?_, fun hp hm => ?_, fun hp hm => ?_⟩
    · rw [hr, if_pos (pos hp)]
    · rw [hr, if_neg (neg hp), if_pos (pos hm)]
    · rw [hr, if_neg (neg hp), if_neg (neg hm)]
  · intro hp
    rw [hx, if_pos (pos hp)]
  · intro hp hm
    rw [hx, if_neg (neg hp), if_pos (pos hm)]
  · intro hp hm
    rw [hx, if_neg (neg hp), if_neg (neg hm)]

/-- A string whose `find` returns `npos` does not contain the marker. -/
theorem not_contains_of_find_str (s marker : String) (h : find_str s marker = none) :
    ¬ Contains s marker :=
  fun hc => (find_str_ne_none s marker).2 hc h

/-- The alias table sends exactly `"Vega10"` and `"gfx901"` to `"gfx900"`, which is not a
key itself. -/
theorem alias_gfx900_iff (p : String) :
    (device_name_map.lookup p).getD p = "gfx900" ↔
      p = "gfx900" ∨ p = "Vega10" ∨ p = "gfx901" := by
  constructor
  · intro h
    cases hl : device_name_map.lookup p with
    | none =>
      rw [hl] at h
      exact Or.inl h
    | some v =>
      rw [hl] at h
      have hv : v = "gfx900" := h
      subst hv
      have hm := mem_of_lookup_eq_some _ _ _ hl
      simp only [device_name_map, List.mem_cons, Prod.mk.injEq, List.mem_nil_iff,
        or_false] at hm
      rcases hm with h | h | h | h | h | h | h | h | h | h | h | h | h
      all_goals first
        | exact Or.inr (Or.inl h.1)
        | exact Or.inr (Or.inr h.1)
        | exact absurd h.2 (by decide)
  · rintro (h | h | h) <;> subst h <;> decide

/-- The resolved name is `"gfx900"` exactly for a name override equal to `"gfx900"`, or,
without a name override, for a raw prefix `"gfx900"`, `"Vega10"` or `"gfx901"`. -/
theorem resolved_gfx900_iff (env : Env) (raw : String) :
    GetDeviceNameFromMap env raw = some "gfx900" ↔
      (env.MIOPEN_DEBUG_ENFORCE_DEVICE = some "gfx900" ∨
        (NoOverride env.MIOPEN_DEBUG_ENFORCE_DEVICE ∧
          (beforeColon raw = "gfx900" ∨ beforeColon raw = "Vega10" ∨
            beforeColon raw = "gfx901"))) := by
  rw [GetDeviceNameFromMap_eq, Option.some_inj]
  by_cases hno : NoOverride env.MIOPEN_DEBUG_ENFORCE_DEVICE
  · rw [NameResolver_of_noOverride _ _ hno, alias_gfx900_iff]
    constructor
    · exact fun h => Or.inr ⟨hno, h⟩
    · rintro (h | h)
      · rcases hno with e | e <;> rw [e] at h <;> exact absurd h (by decide)
      · exact h.2
  · cases ho : env.MIOPEN_DEBUG_ENFORCE_DEVICE with
    | none => exact absurd (Or.inl ho) hno
    | some o =>
      have hne : o ≠ "" := fun e => hno (Or.inr (by rw [ho, e]))
      rw [NameResolver_of_override o raw hne]
      constructor
      · exact fun h => Or.inl (by rw [h])
      · rintro (h | h)
        · exact Option.some.inj h
        · exact absurd (ho ▸ h.1) hno

/-- `Init` overwrites every data member: its result depends only on the name override
and on the raw identifier in use, not on the object it starts from. -/
theorem Init_congr (env₁ env₂ : Env) (handle₁ handle₂ : Handle) (self₁ self₂ : TargetProperties)
    (hdev : env₁.MIOPEN_DEBUG_ENFORCE_DEVICE = env₂.MIOPEN_DEBUG_ENFORCE_DEVICE)
    (hraw : Init.rawName env₁ handle₁ = Init.rawName env₂ handle₂) :
    Init env₁ handle₁ self₁ = Init env₂ handle₂ self₂ := by
  obtain ⟨d₁, h₁, n₁, s₁, r₁, x₁, k₁⟩ := Init_spec env₁ handle₁ self₁
  obtain ⟨d₂, h₂, n₂, s₂, r₂, x₂, k₂⟩ := Init_spec env₂ handle₂ self₂
  rw [h₁, h₂]
  have hn : d₁.name = d₂.name := by rw [n₁, n₂, hdev, hraw]
  have hs : d₁.sramecc = d₂.sramecc := by rw [s₁, s₂, hn]
  have hr : d₁.sramecc_reported = d₂.sramecc_reported := by rw [r₁, r₂, hn, hs, hraw]
  have hx : d₁.xnack = d₂.xnack := by rw [x₁, x₂, hraw]
  have hk : d₁.dbId = d₂.dbId := by rw [k₁, k₂, hn, hs, hx]
  obtain ⟨_, _, _, _, _⟩ := d₁
  obtain ⟨_, _, _, _, _⟩ := d₂
  simp only at hn hs hr hx hk
  rw [hn, hs, hr, hx, hk]

theorem rawName_of_override (dev : Option String) (a : String) (ha : a ≠ "")
    (handle : Handle) : Init.rawName ⟨dev, some a⟩ handle = a := by
  have hp : strlen a > 0 := (strlen_pos_iff a).2 ha
  simp [Init.rawName, hp]

theorem rawName_of_noOverride (dev arch : Option String) (h : NoOverride arch)
    (handle : Handle) : Init.rawName ⟨dev, arch⟩ handle = handle.GetDeviceNameImpl := by
  rcases h with h | h <;> subst h <;> simp [Init.rawName, strlen]

/-- Every value of the alias table is one of the three canonical names. -/
theorem device_name_map_values (k v : String) (h : (k, v) ∈ device_name_map) :
    v = "gfx803" ∨ v = "gfx900" ∨ v = "gfx1030" := by
  simp only [device_name_map, List.mem_cons, Prod.mk.injEq, List.mem_nil_iff,
    or_false] at h
  rcases h with h | h | h | h | h | h | h | h | h | h | h | h | h
  all_goals first
    | exact Or.inl h.2
    | exact Or.inr (Or.inl h.2)
    | exact Or.inr (Or.inr h.2)

theorem not_mem_keys_of_lookup_eq_none (m : List (String × String)) (k : String)
    (h : m.lookup k = none) : k ∉ m.map Prod.fst := by
  intro hm
  obtain ⟨e, he, hk⟩ := List.mem_map.1 hm
  have := List.lookup_eq_none_iff.1 h e he
  simp [hk] at this

/-! ## Raw identifiers built from tokens -/

theorem marker_infix_append_of_not_mem (body d rest : List Char) (hd : ':' ∉ d) :
    (':' :: body) <:+: d ++ rest ↔ (':' :: body) <:+: rest := by
  induction d with
  | nil => simp
  | cons x d ih =>
    simp only [List.mem_cons, not_or] at hd
    rw [List.cons_append, List.infix_cons_iff, ih hd.2]
    constructor
    · rintro (h | h)
      · exact absurd (List.cons_prefix_cons.1 h).1 hd.1
      · exact h
    · exact fun h => Or.inr h

theorem prefix_append_stop (body t R : List Char) (hb : ':' ∉ body)
    (hR : R = [] ∨ ∃ R₀, R = ':' :: R₀) : body <+: t ++ R ↔ body <+: t := by
  constructor
  · intro h
    rcases List.prefix_or_prefix_of_prefix h (List.prefix_append t R) with h₁ | ⟨u, hu⟩
    · exact h₁
    · subst hu
      have hu : u <+: R := (List.prefix_append_right_inj t).1 h
      have hnil : u = [] := by
        rcases hR with hR | ⟨R₀, hR⟩
        · subst hR
          exact List.prefix_nil.1 hu
        · subst hR
          rcases List.prefix_cons_iff.1 hu with h₀ | ⟨t₀, ht₀, -⟩
          · exact h₀
          · subst ht₀
            exact absurd (List.mem_append_right t (List.mem_cons_self _ _)) hb
      subst hnil
      simp
  · exact fun h => h.trans (List.prefix_append t R)

theorem suffixes_data_cons (t : String) (ts : List String) :
    (suffixes (t :: ts)).data = ':' :: (t.data ++ (suffixes ts).data) := by
  simp [suffixes]

theorem suffixes_data_head (ts : List String) :
    (suffixes ts).data = [] ∨ ∃ R₀, (suffixes ts).data = ':' :: R₀ := by
  cases ts with
  | nil => exact Or.inl rfl
  | cons t ts => exact Or.inr ⟨_, suffixes_data_cons t ts⟩

/-- A marker made of a colon and a colon-free body occurs in the suffix part exactly when
some token begins with the body. -/
theorem marker_infix_suffixes (body : List Char) (hb : ':' ∉ body) (ts : List String)
    (hts : ∀ t ∈ ts, ':' ∉ t.data) :
    (':' :: body) <:+: (suffixes ts).data ↔ ∃ t ∈ ts, body <+: t.data := by
  induction ts with
  | nil => simp [suffixes]
  | cons t ts ih =>
    have ht : ':' ∉ t.data := hts t (List.mem_cons_self _ _)
    have hts₂ : ∀ t₂ ∈ ts, ':' ∉ t₂.data := fun t₂ h => hts t₂ (List.mem_cons_of_mem _ h)
    rw [suffixes_data_cons, List.infix_cons_iff, List.cons_prefix_cons,
      prefix_append_stop body t.data _ hb (suffixes_data_head ts),
      marker_infix_append_of_not_mem body t.data _ ht, ih hts₂]
    simp

theorem find_str_mkRaw (d : String) (ts : List String) (body : List Char)
    (hd : ':' ∉ d.data) (hts : ∀ t ∈ ts, ':' ∉ t.data) (hb : ':' ∉ body) :
    find_str (mkRaw d ts) ⟨':' :: body⟩ ≠ none ↔ ∃ t ∈ ts, body <+: t.data := by
  unfold find_str mkRaw
  rw [find_str_from_ne_none, String.data_append, marker_infix_append_of_not_mem _ _ _ hd,
    marker_infix_suffixes body hb ts hts]

theorem beforeColon_mkRaw (d : String) (ts : List String) (hd : ':' ∉ d.data) :
    beforeColon (mkRaw d ts) = d := by
  apply String.ext
  unfold beforeColon mkRaw
  simp only [String.data_append]
  rcases suffixes_data_head ts with h | ⟨R₀, h⟩
  · rw [h, List.append_nil]
    exact takeWhile_ne_of_not_mem ':' _ hd
  · rw [h, List.takeWhile_append_of_pos]
    · simp
    · intro a ha
      have : a ≠ ':' := fun e => hd (e ▸ ha)
      simpa using this

theorem NameResolver_congr (o : Option String) (raw₁ raw₂ : String)
    (h : beforeColon raw₁ = beforeColon raw₂) : NameResolver o raw₁ = NameResolver o raw₂ := by
  unfold NameResolver
  rw [h]

/-- Two runs of `Init` under the same name override agree when their raw identifiers have
the same part before the first colon and the same outcome of the four `find` tests. -/
theorem Init_congr_markers (env₁ env₂ : Env) (handle₁ handle₂ : Handle)
    (self₁ self₂ : TargetProperties)
    (hdev : env₁.MIOPEN_DEBUG_ENFORCE_DEVICE = env₂.MIOPEN_DEBUG_ENFORCE_DEVICE)
    (hb : beforeColon (Init.rawName env₁ handle₁) = beforeColon (Init.rawName env₂ handle₂))
    (hsp : find_str (Init.rawName env₁ handle₁) ":sramecc+" ≠ none ↔
      find_str (Init.rawName env₂ handle₂) ":sramecc+" ≠ none)
    (hsm : find_str (Init.rawName env₁ handle₁) ":sramecc-" ≠ none ↔
      find_str (Init.rawName env₂ handle₂) ":sramecc-" ≠ none)
    (hxp : find_str (Init.rawName env₁ handle₁) ":xnack+" ≠ none ↔
      find_str (Init.rawName env₂ handle₂) ":xnack+" ≠ none)
    (hxm : find_str (Init.rawName env₁ handle₁) ":xnack-" ≠ none ↔
      find_str (Init.rawName env₂ handle₂) ":xnack-" ≠ none) :
    Init env₁ handle₁ self₁ = Init env₂ handle₂ self₂ := by
  obtain ⟨d₁, h₁, n₁, s₁, r₁, x₁, k₁⟩ := Init_spec env₁ handle₁ self₁
  obtain ⟨d₂, h₂, n₂, s₂, r₂, x₂, k₂⟩ := Init_spec env₂ handle₂ self₂
  rw [h₁, h₂]
  have hn : d₁.name = d₂.name := by rw [n₁, n₂, hdev, NameResolver_congr _ _ _ hb]
  have hs : d₁.sramecc = d₂.sramecc := by rw [s₁, s₂, hn]
  have hr : d₁.sramecc_reported = d₂.sramecc_reported := by
    rw [r₁, r₂, hn, hs]
    simp only [hsp, hsm]
  have hx : d₁.xnack = d₂.xnack := by
    rw [x₁, x₂]
    simp only [hxp, hxm]
  have hk : d₁.dbId = d₂.dbId := by rw [k₁, k₂, hn, hs, hx]
  obtain ⟨_, _, _, _, _⟩ := d₁
  obtain ⟨_, _, _, _, _⟩ := d₂
  simp only at hn hs hr hx hk
  rw [hn, hs, hr, hx, hk]

theorem beginsWith_iff_data (s t : String) : BeginsWith s t ↔ t.data <+: s.data := by
  constructor
  · rintro ⟨post, h⟩
    exact ⟨post.data, by rw [h, String.data_append]⟩
  · rintro ⟨post, h⟩
    exact ⟨⟨post⟩, String.ext (by rw [String.data_append, h])⟩

/-- In a raw identifier built from a colon-free device part and colon-free tokens, the
test `find(":" ++ f) != npos` for a colon-free `f` holds exactly when a token begins
with `f`. -/
theorem find_str_mkRaw_token (d : String) (ts : List String) (f : String)
    (hd : ':' ∉ d.data) (hts : ∀ t ∈ ts, ':' ∉ t.data) (hf : ':' ∉ f.data) :
    find_str (mkRaw d ts) (":" ++ f) ≠ none ↔ ∃ t ∈ ts, BeginsWith t f := by
  have e : (":" ++ f : String) = ⟨':' :: f.data⟩ := String.ext (by simp)
  rw [e, find_str_mkRaw d ts f.data hd hts hf]
  simp only [beginsWith_iff_data]

/-- Two token lists in which the same feature tokens begin some token give the same
descriptor, under any name override, when the handle's string is the raw identifier. -/
theorem Init_mkRaw_congr (dev arch : Option String) (ha : NoOverride arch)
    (self₁ self₂ : TargetProperties) (d : String) (ts₁ ts₂ : List String)
    (hd : ':' ∉ d.data) (h₁ : ∀ t ∈ ts₁, ':' ∉ t.data) (h₂ : ∀ t ∈ ts₂, ':' ∉ t.data)
    (H : ∀ f ∈ featureTokens, (∃ t ∈ ts₁, BeginsWith t f) ↔ (∃ t ∈ ts₂, BeginsWith t f)) :
    Init ⟨dev, arch⟩ ⟨mkRaw d ts₁⟩ self₁ = Init ⟨dev, arch⟩ ⟨mkRaw d ts₂⟩ self₂ := by
  have key : ∀ f ∈ featureTokens,
      (find_str (Init.rawName ⟨dev, arch⟩ ⟨mkRaw d ts₁⟩) (":" ++ f) ≠ none ↔
        find_str (Init.rawName ⟨dev, arch⟩ ⟨mkRaw d ts₂⟩) (":" ++ f) ≠ none) := by
    intro f hf
    have hc : ':' ∉ f.data := by
      simp only [featureTokens, List.mem_cons, List.mem_nil_iff, or_false] at hf
      rcases hf with h | h | h | h <;> subst h <;> decide
    rw [rawName_of_noOverride dev arch ha, rawName_of_noOverride dev arch ha,
      find_str_mkRaw_token d ts₁ f hd h₁ hc, find_str_mkRaw_token d ts₂ f hd h₂ hc]
    exact H f hf
  apply Init_congr_markers
  · rfl
  · rw [rawName_of_noOverride dev arch ha, rawName_of_noOverride dev arch ha]
    exact (beforeColon_mkRaw d ts₁ hd).trans (beforeColon_mkRaw d ts₂ hd).symm
  · exact key "sramecc+" (by decide)
  · exact key "sramecc-" (by decide)
  · exact key "xnack+" (by decide)
  · exact key "xnack-" (by decide)

/-- The result of `Init` does not depend on the object it starts from. -/
theorem Init_default (env : Env) (handle : Handle) (self : TargetProperties) :
    Init env handle self = Init env handle TargetProperties.default :=
  Init_congr env env handle handle self TargetProperties.default rfl rfl

/-! ## What the key determines -/

theorem endsWith_iff_data (s t : String) : EndsWith s t ↔ t.data <:+ s.data := by
  constructor
  · rintro ⟨pre, h⟩
    exact ⟨pre.data, by rw [h, String.data_append]⟩
  · rintro ⟨pre, h⟩
    exact ⟨⟨pre⟩, String.ext (by rw [String.data_append, h])⟩

theorem keySuffix_mem (n : String) (s x : Option Bool) :
    KeyBuilder.S n s ++ KeyBuilder.X x ∈ keySuffixes := by
  unfold KeyBuilder.S KeyBuilder.X
  by_cases hn : n = "gfx906" ∨ n = "gfx908" <;>
    rcases s with _ | _ | _ <;> rcases x with _ | _ | _ <;> simp [hn] <;> decide

theorem keySuffix_overlap :
    ∀ T₁ ∈ keySuffixes, ∀ T₂ ∈ keySuffixes,
      T₁.data = T₁.data.take (T₁.data.length - T₂.data.length) ++ T₂.data →
      (T₁.data.take (T₁.data.length - T₂.data.length) = [] ∨
        "_xnack".data <:+ T₁.data.take (T₁.data.length - T₂.data.length) ∨
        "_sramecc".data <:+ T₁.data.take (T₁.data.length - T₂.data.length) ∨
        "_nosramecc".data <:+ T₁.data.take (T₁.data.length - T₂.data.length)) := by
  decide

theorem keySuffix_split (T₁ T₂ : String) (h₁ : T₁ ∈ keySuffixes) (h₂ : T₂ ∈ keySuffixes)
    (a : List Char) (h : T₁.data = a ++ T₂.data) :
    a = [] ∨ "_xnack".data <:+ a ∨ "_sramecc".data <:+ a ∨ "_nosramecc".data <:+ a := by
  have ha : a = T₁.data.take (T₁.data.length - T₂.data.length) := by
    rw [h]
    simp
  have := keySuffix_overlap T₁ h₁ T₂ h₂ (by rw [← ha]; exact h)
  rw [← ha] at this
  exact this

theorem not_suffix_of_noFeatureSuffix (n : String) (hn : NoFeatureSuffix n) (a b : List Char)
    (hb : n.data = b ++ a)
    (ha : a = [] ∨ "_xnack".data <:+ a ∨ "_sramecc".data <:+ a ∨ "_nosramecc".data <:+ a) :
    a = [] := by
  have hsuf : a <:+ n.data := ⟨b, hb.symm⟩
  rcases ha with h | h | h | h
  · exact h
  · exact absurd ((endsWith_iff_data _ _).2 (h.trans hsuf)) hn.1
  · exact absurd ((endsWith_iff_data _ _).2 (h.trans hsuf)) hn.2.1
  · exact absurd ((endsWith_iff_data _ _).2 (h.trans hsuf)) hn.2.2

/-- A name without a feature suffix can be read back from the key. -/
theorem name_eq_of_append_keySuffix (n₁ n₂ T₁ T₂ : String) (h₁ : NoFeatureSuffix n₁)
    (h₂ : NoFeatureSuffix n₂) (hT₁ : T₁ ∈ keySuffixes) (hT₂ : T₂ ∈ keySuffixes)
    (h : n₁ ++ T₁ = n₂ ++ T₂) : n₁ = n₂ ∧ T₁ = T₂ := by
  have hl : n₁.data ++ T₁.data = n₂.data ++ T₂.data := by
    rw [← String.data_append, ← String.data_append, h]
  rcases List.append_eq_append_iff.1 hl with ⟨a, hn, hT⟩ | ⟨a, hn, hT⟩
  · have ha := not_suffix_of_noFeatureSuffix n₂ h₂ a n₁.data hn
      (keySuffix_split T₁ T₂ hT₁ hT₂ a hT)
    subst ha
    simp only [List.append_nil, List.nil_append] at hn hT
    exact ⟨String.ext hn.symm, String.ext hT⟩
  · have ha := not_suffix_of_noFeatureSuffix n₁ h₁ a n₂.data hn
      (keySuffix_split T₂ T₁ hT₂ hT₁ a hT)
    subst ha
    simp only [List.append_nil, List.nil_append] at hn hT
    exact ⟨String.ext hn, String.ext hT.symm⟩

/-- For one name, the appended text tells whether sramecc is true and whether xnack is
true. -/
theorem flags_of_keySuffix (n : String) (s₁ s₂ x₁ x₂ : Option Bool)
    (h : KeyBuilder.S n s₁ ++ KeyBuilder.X x₁ = KeyBuilder.S n s₂ ++ KeyBuilder.X x₂) :
    (s₁ = some true ↔ s₂ = some true) ∧ (x₁ = some true ↔ x₂ = some true) := by
  unfold KeyBuilder.S KeyBuilder.X at h
  by_cases hn : n = "gfx906" ∨ n = "gfx908" <;>
    simp only [hn, if_true, if_false] at h <;>
    rcases s₁ with _ | _ | _ <;> rcases s₂ with _ | _ | _ <;>
    rcases x₁ with _ | _ | _ <;> rcases x₂ with _ | _ | _ <;>
    first
      | exact ⟨Iff.rfl, Iff.rfl⟩
      | exact absurd h (by decide)
      | simp

/-! ## The claims -/

/-- C1. Key Builder (`InitDbId`): for every name and every tri-state sramecc and xnack,
`dbId = name ++ S ++ X` in that order, where `S` is `"_nosramecc"` if the name is
`"gfx906"` or `"gfx908"` and sramecc is false or unknown, `"_sramecc"` if the name is
neither and sramecc is true, and empty otherwise; `X` is `"_xnack"` if xnack is true and
empty if it is false or unknown. -/
theorem InitDbId_dbId (name dbId0 : String) (xnack sramecc sramecc_reported : Option Bool) :
    (InitDbId ⟨name, dbId0, xnack, sramecc, sramecc_reported⟩).dbId =
      name
        ++ (if name = "gfx906" ∨ name = "gfx908" then
              (if sramecc = some false ∨ sramecc = none then "_nosramecc" else "")
            else
              (if sramecc = some true then "_sramecc" else ""))
        ++ (if xnack = some true then "_xnack" else "") :=
  InitDbId_eq_KeyBuilder ⟨name, dbId0, xnack, sramecc, sramecc_reported⟩

/-- C2. Name Resolver without a name override (`MIOPEN_DEBUG_ENFORCE_DEVICE` absent or
empty): with `p` the part of `raw` before its first colon (all of `raw` if it has none),
`GetDeviceNameFromMap` returns the alias table's value for `p` if `p` is exactly one of
the 13 table keys, and returns `p` unchanged otherwise. -/
theorem GetDeviceNameFromMap_no_override (env : Env) (raw : String)
    (h : NoOverride env.MIOPEN_DEBUG_ENFORCE_DEVICE) :
    (':' ∉ (beforeColon raw).data ∧
      (raw = beforeColon raw ∨ ∃ t : String, raw = beforeColon raw ++ ":" ++ t)) ∧
    (∀ v, (beforeColon raw, v) ∈ device_name_map → GetDeviceNameFromMap env raw = some v) ∧
    (beforeColon raw ∉ device_name_map.map Prod.fst →
      GetDeviceNameFromMap env raw = some (beforeColon raw)) ∧
    (device_name_map.map Prod.fst).Nodup ∧ device_name_map.length = 13 := by
  refine ⟨⟨colon_not_mem_beforeColon raw, beforeColon_split raw⟩, ?_, ?_,
    device_name_map_nodup, rfl⟩
  · intro v hv
    rw [GetDeviceNameFromMap_eq, NameResolver_of_noOverride _ _ h,
      lookup_of_mem_of_nodup _ device_name_map_nodup _ _ hv]
    rfl
  · intro hk
    rw [GetDeviceNameFromMap_eq, NameResolver_of_noOverride _ _ h,
      lookup_eq_none_of_not_mem _ _ hk]
    rfl

/-- C2 at concrete inputs: `"gfx1030"` and `"ellesmere"` pass through unchanged, a suffix is
cut at the first colon, and the alias `"Ellesmere"` resolves to `"gfx803"`. -/
theorem GetDeviceNameFromMap_no_override_witness :
    GetDeviceNameFromMap ⟨none, none⟩ "gfx1030" = some "gfx1030" ∧
    GetDeviceNameFromMap ⟨some "", none⟩ "ellesmere" = some "ellesmere" ∧
    GetDeviceNameFromMap ⟨none, none⟩ "gfx90a:sramecc+:xnack-" = some "gfx90a" ∧
    GetDeviceNameFromMap ⟨none, none⟩ "Ellesmere:xnack-" = some "gfx803" :=
  ⟨(GetDeviceNameFromMap_no_override ⟨none, none⟩ "gfx1030" (Or.inl rfl)).2.2.1 (by decide),
   (GetDeviceNameFromMap_no_override ⟨some "", none⟩ "ellesmere" (Or.inr rfl)).2.2.1
      (by decide),
   (GetDeviceNameFromMap_no_override ⟨none, none⟩ "gfx90a:sramecc+:xnack-" (Or.inl rfl)).2.2.1
      (by decide),
   (GetDeviceNameFromMap_no_override ⟨none, none⟩ "Ellesmere:xnack-" (Or.inl rfl)).2.1
      "gfx803" (by decide)⟩

/-- C3. Name override precedence: for every non-empty `MIOPEN_DEBUG_ENFORCE_DEVICE` value
`o` and every raw identifier, the resolved name is `o` exactly, in `GetDeviceNameFromMap`
and in the descriptor `Init` builds; neither the cut at the first colon nor the alias
table is applied to `o`. -/
theorem name_override_verbatim (o : String) (ho : o ≠ "") (arch : Option String)
    (raw : String) (handle : Handle) (self : TargetProperties) :
    GetDeviceNameFromMap ⟨some o, arch⟩ raw = some o ∧
    ∃ d, Init ⟨some o, arch⟩ handle self = some d ∧ d.name = o := by
  constructor
  · rw [GetDeviceNameFromMap_eq, NameResolver_of_override o raw ho]
  · obtain ⟨d, hd, hn, -⟩ := Init_spec ⟨some o, arch⟩ handle self
    exact ⟨d, hd, hn.trans (NameResolver_of_override o _ ho)⟩

/-- C3 at concrete inputs: the override `"Ellesmere"` gives the name `"Ellesmere"`, not
`"gfx803"`, and the override `"gfx906:xnack+"` is not cut at its colon. -/
theorem name_override_verbatim_witness :
    (GetDeviceNameFromMap ⟨some "Ellesmere", none⟩ "gfx906:sramecc+" = some "Ellesmere" ∧
      ∃ d, Init ⟨some "Ellesmere", none⟩ ⟨"gfx906:sramecc+"⟩ TargetProperties.default = some d ∧
        d.name = "Ellesmere") ∧
    GetDeviceNameFromMap ⟨some "gfx906:xnack+", some "Fiji"⟩ "Tonga" = some "gfx906:xnack+" :=
  ⟨name_override_verbatim "Ellesmere" (by decide) none "gfx906:sramecc+" ⟨"gfx906:sramecc+"⟩
      TargetProperties.default,
   (name_override_verbatim "gfx906:xnack+" (by decide) (some "Fiji") "Tonga" ⟨"Tonga"⟩
      TargetProperties.default).1⟩

/-- C4. `sramecc_reported` for architectures other than gfx900: when the resolved name is
not `"gfx900"`, `Init` sets `sramecc_reported` to true if the raw identifier contains
`":sramecc+"`, otherwise to false if it contains `":sramecc-"`, otherwise to the default
sramecc computed for the resolved name. -/
theorem sramecc_reported_not_gfx900 (env : Env) (handle : Handle) (self : TargetProperties)
    (h : GetDeviceNameFromMap env (Init.rawName env handle) ≠ some "gfx900") :
    ∃ d, Init env handle self = some d ∧
      GetDeviceNameFromMap env (Init.rawName env handle) = some d.name ∧
      (Contains (Init.rawName env handle) ":sramecc+" → d.sramecc_reported = some true) ∧
      (¬ Contains (Init.rawName env handle) ":sramecc+" →
        Contains (Init.rawName env handle) ":sramecc-" → d.sramecc_reported = some false) ∧
      (¬ Contains (Init.rawName env handle) ":sramecc+" →
        ¬ Contains (Init.rawName env handle) ":sramecc-" →
        d.sramecc_reported = d.sramecc ∧ d.sramecc = defaultSramecc d.name) := by
  obtain ⟨d, hd, hn, hs, -, hr, -⟩ := Init_contains env handle self
  have hne : d.name ≠ "gfx900" := fun e => h (by rw [hn, e])
  obtain ⟨h1, h2, h3⟩ := hr hne
  exact ⟨d, hd, hn, h1, h2, fun hp hm => ⟨h3 hp hm, hs⟩⟩

/-- C4 at a concrete input: `"gfx906:sramecc-:xnack+"` has no `":sramecc+"` and has
`":sramecc-"`, so the reported value is false. -/
theorem sramecc_reported_not_gfx900_witness :
    ∃ d, Init ⟨none, none⟩ ⟨"gfx906:sramecc-:xnack+"⟩ TargetProperties.default = some d ∧
      d.name = "gfx906" ∧ d.sramecc_reported = some false := by
  obtain ⟨d, hd, hn, -, h2, -⟩ :=
    sramecc_reported_not_gfx900 ⟨none, none⟩ ⟨"gfx906:sramecc-:xnack+"⟩
      TargetProperties.default (by decide)
  have hn2 : GetDeviceNameFromMap ⟨none, none⟩ "gfx906:sramecc-:xnack+" = some "gfx906" := by
    decide
  refine ⟨d, hd, ?_, h2 (not_contains_of_find_str _ _ (by decide))
    ⟨"gfx906", ":xnack+", by decide⟩⟩
  exact (Option.some.inj (hn.symm.trans hn2))

/-- C5. The effective sramecc depends only on the resolved name, never on the raw
suffixes: after `Init` it is true if the resolved name is `"gfx906"` or `"gfx908"` and
unknown otherwise, hence never false, and two runs that resolve to the same name give the
same sramecc. -/
theorem sramecc_from_name_only (env₁ env₂ : Env) (handle₁ handle₂ : Handle)
    (self₁ self₂ : TargetProperties) :
    ∃ d₁ d₂, Init env₁ handle₁ self₁ = some d₁ ∧ Init env₂ handle₂ self₂ = some d₂ ∧
      GetDeviceNameFromMap env₁ (Init.rawName env₁ handle₁) = some d₁.name ∧
      (d₁.name = "gfx906" ∨ d₁.name = "gfx908" → d₁.sramecc = some true) ∧
      (¬ (d₁.name = "gfx906" ∨ d₁.name = "gfx908") → d₁.sramecc = unknown) ∧
      d₁.sramecc ≠ some false ∧
      (d₁.name = d₂.name → d₁.sramecc = d₂.sramecc) := by
  obtain ⟨d₁, hd₁, hn₁, hs₁, -⟩ := Init_contains env₁ handle₁ self₁
  obtain ⟨d₂, hd₂, -, hs₂, -⟩ := Init_contains env₂ handle₂ self₂
  refine ⟨d₁, d₂, hd₁, hd₂, hn₁, ?_, ?_, ?_, ?_⟩
  · intro h
    rw [hs₁, defaultSramecc, if_pos h]
  · intro h
    rw [hs₁, defaultSramecc, if_neg h]
  · rw [hs₁, defaultSramecc]
    split <;> simp
  · intro h
    rw [hs₁, hs₂, h]

/-- C5 at concrete inputs: `"gfx906:sramecc+"` and `"gfx906:sramecc-"` both give sramecc
true. -/
theorem sramecc_from_name_only_witness :
    ∃ d₁ d₂,
      Init ⟨none, none⟩ ⟨"gfx906:sramecc+"⟩ TargetProperties.default = some d₁ ∧
      Init ⟨none, none⟩ ⟨"gfx906:sramecc-"⟩ TargetProperties.default = some d₂ ∧
      d₁.sramecc = some true ∧ d₂.sramecc = some true := by
  obtain ⟨d₁, d₂, h₁, h₂, hn, ht, -, -, he⟩ :=
    sramecc_from_name_only ⟨none, none⟩ ⟨none, none⟩ ⟨"gfx906:sramecc+"⟩ ⟨"gfx906:sramecc-"⟩
      TargetProperties.default TargetProperties.default
  have e₁ : Init ⟨none, none⟩ ⟨"gfx906:sramecc+"⟩ TargetProperties.default =
      some ⟨"gfx906", "gfx906", none, some true, some true⟩ := by decide
  have e₂ : Init ⟨none, none⟩ ⟨"gfx906:sramecc-"⟩ TargetProperties.default =
      some ⟨"gfx906", "gfx906", none, some true, some false⟩ := by decide
  have q₁ := Option.some.inj (h₁.symm.trans e₁)
  have q₂ := Option.some.inj (h₂.symm.trans e₂)
  have hname : d₁.name = d₂.name := by rw [q₁, q₂]
  have hs : d₁.sramecc = some true := ht (Or.inl (by rw [q₁]))
  exact ⟨d₁, d₂, h₁, h₂, hs, (he hname).symm.trans hs⟩

/-- C6. The gfx900 workaround: the resolved name is `"gfx900"` exactly for a raw prefix
`"gfx900"`, `"Vega10"` or `"gfx901"` without a name override, or a name override equal
to `"gfx900"`; and whenever it is, `Init` sets `sramecc_reported` to unknown whatever the
raw identifier contains, while the effective sramecc is the ordinary default (unknown) and
the key gets no sramecc suffix. -/
theorem gfx900_workaround (env : Env) (handle : Handle) (self : TargetProperties) :
    (GetDeviceNameFromMap env (Init.rawName env handle) = some "gfx900" ↔
      (env.MIOPEN_DEBUG_ENFORCE_DEVICE = some "gfx900" ∨
        (NoOverride env.MIOPEN_DEBUG_ENFORCE_DEVICE ∧
          (beforeColon (Init.rawName env handle) = "gfx900" ∨
            beforeColon (Init.rawName env handle) = "Vega10" ∨
            beforeColon (Init.rawName env handle) = "gfx901")))) ∧
    (GetDeviceNameFromMap env (Init.rawName env handle) = some "gfx900" →
      ∃ d, Init env handle self = some d ∧ d.name = "gfx900" ∧
        d.sramecc_reported = unknown ∧
        d.sramecc = defaultSramecc d.name ∧ d.sramecc = unknown ∧
        d.dbId = "gfx900" ++ KeyBuilder.X d.xnack) := by
  refine ⟨resolved_gfx900_iff env _, fun h => ?_⟩
  obtain ⟨d, hd, hn, hs, hr, -, -, -, -, hk⟩ := Init_contains env handle self
  have hname : d.name = "gfx900" := (Option.some.inj (hn.symm.trans h))
  have hs2 : d.sramecc = unknown := by
    rw [hs, hname]
    decide
  refine ⟨d, hd, hname, hr hname, hs, hs2, ?_⟩
  rw [hk, hs2, hname]
  simp [KeyBuilder, KeyBuilder.S]

/-- C6 at the concrete input `"gfx900:sramecc-"`: name `"gfx900"`, `sramecc_reported`
unknown, sramecc unknown, key `"gfx900"`; the same for the alias `"Vega10"` with
`":sramecc+"`. -/
theorem gfx900_workaround_witness :
    Init ⟨none, none⟩ ⟨"gfx900:sramecc-"⟩ TargetProperties.default =
      some ⟨"gfx900", "gfx900", unknown, unknown, unknown⟩ ∧
    ∃ d, Init ⟨none, none⟩ ⟨"Vega10:sramecc+"⟩ TargetProperties.default = some d ∧
      d.name = "gfx900" ∧ d.sramecc_reported = unknown := by
  constructor
  · decide
  · obtain ⟨d, hd, hn, hr, -⟩ :=
      (gfx900_workaround ⟨none, none⟩ ⟨"Vega10:sramecc+"⟩ TargetProperties.default).2
        (by decide)
    exact ⟨d, hd, hn, hr⟩

/-- C7. xnack inference: for every raw identifier and every resolved name (any override
setting), `Init` sets xnack to true if the raw identifier contains `":xnack+"`, otherwise
to false if it contains `":xnack-"`, otherwise to unknown. -/
theorem xnack_inference (env : Env) (handle : Handle) (self : TargetProperties) :
    ∃ d, Init env handle self = some d ∧
      (Contains (Init.rawName env handle) ":xnack+" → d.xnack = some true) ∧
      (¬ Contains (Init.rawName env handle) ":xnack+" →
        Contains (Init.rawName env handle) ":xnack-" → d.xnack = some false) ∧
      (¬ Contains (Init.rawName env handle) ":xnack+" →
        ¬ Contains (Init.rawName env handle) ":xnack-" → d.xnack = unknown) := by
  obtain ⟨d, hd, -, -, -, -, h1, h2, h3, -⟩ := Init_contains env handle self
  exact ⟨d, hd, h1, h2, h3⟩

/-- C7 at concrete inputs: `":xnack-"` alone gives false, under a name override too. -/
theorem xnack_inference_witness :
    ∃ d, Init ⟨some "gfx90a", none⟩ ⟨"gfx1030:sramecc+:xnack-"⟩ TargetProperties.default =
        some d ∧ d.xnack = some false := by
  obtain ⟨d, hd, -, h2, -⟩ :=
    xnack_inference ⟨some "gfx90a", none⟩ ⟨"gfx1030:sramecc+:xnack-"⟩ TargetProperties.default
  exact ⟨d, hd, h2 (not_contains_of_find_str _ _ (by decide))
    ⟨"gfx1030:sramecc+", "", by decide⟩⟩

/-- C8. The dbId invariant of every constructed descriptor: the descriptor `Init` produces
satisfies `dbId = KeyBuilder(name, sramecc, xnack)` for its own fields, so two descriptors
with equal `(name, sramecc, xnack)` have equal `dbId`, whatever their raw identifiers and
`sramecc_reported` values. -/
theorem Init_dbId_invariant (env₁ env₂ : Env) (handle₁ handle₂ : Handle)
    (self₁ self₂ : TargetProperties) :
    ∃ d₁ d₂, Init env₁ handle₁ self₁ = some d₁ ∧ Init env₂ handle₂ self₂ = some d₂ ∧
      d₁.dbId = KeyBuilder d₁.name d₁.sramecc d₁.xnack ∧
      d₂.dbId = KeyBuilder d₂.name d₂.sramecc d₂.xnack ∧
      (d₁.name = d₂.name → d₁.sramecc = d₂.sramecc → d₁.xnack = d₂.xnack →
        d₁.dbId = d₂.dbId) := by
  obtain ⟨d₁, h₁, -, -, -, -, k₁⟩ := Init_spec env₁ handle₁ self₁
  obtain ⟨d₂, h₂, -, -, -, -, k₂⟩ := Init_spec env₂ handle₂ self₂
  refine ⟨d₁, d₂, h₁, h₂, k₁, k₂, fun hn hs hx => ?_⟩
  rw [k₁, k₂, hn, hs, hx]

/-- C8 at concrete inputs: `"gfx906:sramecc+"` and `"gfx906:sramecc-"` differ in the raw
identifier and in `sramecc_reported`, agree on `(name, sramecc, xnack)`, and have the same
`dbId`. -/
theorem Init_dbId_invariant_witness :
    ∃ d₁ d₂,
      Init ⟨none, none⟩ ⟨"gfx906:sramecc+"⟩ TargetProperties.default = some d₁ ∧
      Init ⟨none, none⟩ ⟨"gfx906:sramecc-"⟩ TargetProperties.default = some d₂ ∧
      d₁.sramecc_reported ≠ d₂.sramecc_reported ∧ d₁.dbId = d₂.dbId := by
  obtain ⟨d₁, d₂, h₁, h₂, -, -, he⟩ :=
    Init_dbId_invariant ⟨none, none⟩ ⟨none, none⟩ ⟨"gfx906:sramecc+"⟩ ⟨"gfx906:sramecc-"⟩
      TargetProperties.default TargetProperties.default
  have e₁ : Init ⟨none, none⟩ ⟨"gfx906:sramecc+"⟩ TargetProperties.default =
      some ⟨"gfx906", "gfx906", none, some true, some true⟩ := by decide
  have e₂ : Init ⟨none, none⟩ ⟨"gfx906:sramecc-"⟩ TargetProperties.default =
      some ⟨"gfx906", "gfx906", none, some true, some false⟩ := by decide
  have q₁ := Option.some.inj (h₁.symm.trans e₁)
  have q₂ := Option.some.inj (h₂.symm.trans e₂)
  refine ⟨d₁, d₂, h₁, h₂, ?_, he ?_ ?_ ?_⟩
  · rw [q₁, q₂]
    decide
  · rw [q₁, q₂]
  · rw [q₁, q₂]
  · rw [q₁, q₂]

/-- C9. Raw-identifier override precedence: for every non-empty `MIOPEN_DEVICE_ARCH` value
`a` and every two device names reported by the handle, `Init` produces the same
descriptor, which is also the one produced with no raw override (absent or empty) for a
handle reporting `a`; when the raw override is absent or empty the handle's string is the
raw identifier. -/
theorem raw_override_precedence (a : String) (ha : a ≠ "") (dev : Option String)
    (handle₁ handle₂ : Handle) (self₁ self₂ self₃ self₄ : TargetProperties) :
    Init.rawName ⟨dev, some a⟩ handle₁ = a ∧
    (∃ d, Init ⟨dev, some a⟩ handle₁ self₁ = some d ∧
      Init ⟨dev, some a⟩ handle₂ self₂ = some d ∧
      Init ⟨dev, none⟩ ⟨a⟩ self₃ = some d ∧
      Init ⟨dev, some ""⟩ ⟨a⟩ self₄ = some d) ∧
    (∀ handle : Handle, Init.rawName ⟨dev, none⟩ handle = handle.GetDeviceNameImpl ∧
      Init.rawName ⟨dev, some ""⟩ handle = handle.GetDeviceNameImpl) := by
  refine ⟨rawName_of_override dev a ha handle₁, ?_, fun handle =>
    ⟨rawName_of_noOverride dev none (Or.inl rfl) handle,
     rawName_of_noOverride dev (some "") (Or.inr rfl) handle⟩⟩
  obtain ⟨d, hd, -⟩ := Init_spec ⟨dev, some a⟩ handle₁ self₁
  refine ⟨d, hd, ?_, ?_, ?_⟩
  · rw [← hd]
    exact Init_congr _ _ _ _ _ _ rfl
      ((rawName_of_override dev a ha handle₂).trans (rawName_of_override dev a ha handle₁).symm)
  · rw [← hd]
    exact Init_congr _ _ _ _ _ _ rfl
      ((rawName_of_noOverride dev none (Or.inl rfl) ⟨a⟩).trans
        (rawName_of_override dev a ha handle₁).symm)
  · rw [← hd]
    exact Init_congr _ _ _ _ _ _ rfl
      ((rawName_of_noOverride dev (some "") (Or.inr rfl) ⟨a⟩).trans
        (rawName_of_override dev a ha handle₁).symm)

/-- C9 at concrete inputs: with `MIOPEN_DEVICE_ARCH = "gfx908:xnack+"` the handles
`"gfx900"` and `"Fiji:sramecc-"` both give the descriptor of `"gfx908:xnack+"`. -/
theorem raw_override_precedence_witness :
    Init ⟨none, some "gfx908:xnack+"⟩ ⟨"gfx900"⟩ TargetProperties.default =
      some ⟨"gfx908", "gfx908_xnack", some true, some true, some true⟩ ∧
    Init ⟨none, some "gfx908:xnack+"⟩ ⟨"Fiji:sramecc-"⟩ TargetProperties.default =
      some ⟨"gfx908", "gfx908_xnack", some true, some true, some true⟩ := by
  obtain ⟨-, ⟨d, h₁, h₂, h₃, -⟩, -⟩ :=
    raw_override_precedence "gfx908:xnack+" (by decide) none ⟨"gfx900"⟩ ⟨"Fiji:sramecc-"⟩
      TargetProperties.default TargetProperties.default TargetProperties.default
      TargetProperties.default
  have e : Init ⟨none, none⟩ ⟨"gfx908:xnack+"⟩ TargetProperties.default =
      some ⟨"gfx908", "gfx908_xnack", some true, some true, some true⟩ := by decide
  have q := Option.some.inj (h₃.symm.trans e)
  rw [h₁, h₂, q]
  exact ⟨rfl, rfl⟩

/-- C10. Idempotence of the Name Resolver: with no name override, resolving the resolved
name again as a raw input gives the same name; the resolved name contains no colon and is
not a key of the alias table, and no value of the alias table is itself a key. -/
theorem GetDeviceNameFromMap_idempotent (env : Env)
    (h : NoOverride env.MIOPEN_DEBUG_ENFORCE_DEVICE) (r : String) :
    (∃ n, GetDeviceNameFromMap env r = some n ∧ GetDeviceNameFromMap env n = some n ∧
      ':' ∉ n.data ∧ n ∉ device_name_map.map Prod.fst) ∧
    (∀ e ∈ device_name_map, e.2 ∉ device_name_map.map Prod.fst) := by
  refine ⟨?_, by decide⟩
  refine ⟨_, GetDeviceNameFromMap_eq env r, ?_⟩
  rw [GetDeviceNameFromMap_eq]
  simp only [NameResolver_of_noOverride _ _ h]
  cases hl : device_name_map.lookup (beforeColon r) with
  | none =>
    have hc := colon_not_mem_beforeColon r
    simp only [Option.getD_none]
    rw [beforeColon_of_no_colon _ hc, hl]
    exact ⟨rfl, hc, not_mem_keys_of_lookup_eq_none _ _ hl⟩
  | some v =>
    simp only [Option.getD_some]
    rcases device_name_map_values _ _ (mem_of_lookup_eq_some _ _ _ hl) with hv | hv | hv <;>
      subst hv <;> decide

/-- C10 at concrete inputs: `"Vega10:xnack+"` resolves to `"gfx900"`, which resolves to
itself. -/
theorem GetDeviceNameFromMap_idempotent_witness :
    ∃ n, GetDeviceNameFromMap ⟨none, none⟩ "Vega10:xnack+" = some n ∧
      GetDeviceNameFromMap ⟨none, none⟩ n = some n ∧ n = "gfx900" := by
  obtain ⟨⟨n, h₁, h₂, -⟩, -⟩ :=
    GetDeviceNameFromMap_idempotent ⟨none, none⟩ (Or.inl rfl) "Vega10:xnack+"
  have e : GetDeviceNameFromMap ⟨none, none⟩ "Vega10:xnack+" = some "gfx900" := by decide
  exact ⟨n, h₁, h₂, Option.some.inj (h₁.symm.trans e)⟩

/-- C11. Suffix-order independence: for every device part `d` containing no colon and every
list of colon-free suffix tokens, with raw built as `d` followed by `":" ++ t` for each
token, any permutation of the token list yields the same descriptor (name, sramecc,
sramecc_reported, xnack and dbId) from `Init`, under any name override, the handle's
string being the raw identifier. -/
theorem suffix_order_independence (dev arch : Option String) (ha : NoOverride arch)
    (self₁ self₂ : TargetProperties) (d : String) (ts₁ ts₂ : List String)
    (hd : ':' ∉ d.data) (hts : ∀ t ∈ ts₁, ':' ∉ t.data) (hp : ts₁.Perm ts₂) :
    ∃ r, Init ⟨dev, arch⟩ ⟨mkRaw d ts₁⟩ self₁ = some r ∧
      Init ⟨dev, arch⟩ ⟨mkRaw d ts₂⟩ self₂ = some r := by
  obtain ⟨r, hr, -⟩ := Init_spec ⟨dev, arch⟩ ⟨mkRaw d ts₁⟩ self₁
  refine ⟨r, hr, ?_⟩
  rw [← hr]
  refine (Init_mkRaw_congr dev arch ha self₁ self₂ d ts₁ ts₂ hd hts
    (fun t ht => hts t (hp.mem_iff.2 ht)) (fun f _ => ?_)).symm
  constructor
  · rintro ⟨t, ht, hb⟩
    exact ⟨t, hp.mem_iff.1 ht, hb⟩
  · rintro ⟨t, ht, hb⟩
    exact ⟨t, hp.mem_iff.2 ht, hb⟩

/-- C11 at concrete inputs: `"gfx906:sramecc-:xnack+:foo"` and `"gfx906:foo:xnack+:sramecc-"`
give the same descriptor. -/
theorem suffix_order_independence_witness :
    mkRaw "gfx906" ["sramecc-", "xnack+", "foo"] = "gfx906:sramecc-:xnack+:foo" ∧
    mkRaw "gfx906" ["foo", "xnack+", "sramecc-"] = "gfx906:foo:xnack+:sramecc-" ∧
    ∃ r, Init ⟨none, none⟩ ⟨mkRaw "gfx906" ["sramecc-", "xnack+", "foo"]⟩
        TargetProperties.default = some r ∧
      Init ⟨none, none⟩ ⟨mkRaw "gfx906" ["foo", "xnack+", "sramecc-"]⟩
        TargetProperties.default = some r :=
  ⟨by decide, by decide,
   suffix_order_independence none none (Or.inl rfl) TargetProperties.default
     TargetProperties.default "gfx906" ["sramecc-", "xnack+", "foo"]
     ["foo", "xnack+", "sramecc-"] (by decide) (by decide) (by decide)⟩

/-- C12, as stated, fails: the colon-free token `"xnack+x"` is none of the four recognized
feature tokens, yet appending it to `"gfx1030"` turns xnack from unknown to true and the
key from `"gfx1030"` to `"gfx1030_xnack"`; likewise `"sramecc+x"` changes
`sramecc_reported`. -/
theorem unrecognized_suffix_counterexample :
    ':' ∉ "gfx1030".data ∧ ':' ∉ "xnack+x".data ∧ "xnack+x" ∉ featureTokens ∧
    ':' ∉ "sramecc+x".data ∧ "sramecc+x" ∉ featureTokens ∧
    Init ⟨none, none⟩ ⟨mkRaw "gfx1030" ([] ++ [])⟩ TargetProperties.default =
      some ⟨"gfx1030", "gfx1030", unknown, unknown, unknown⟩ ∧
    Init ⟨none, none⟩ ⟨mkRaw "gfx1030" ([] ++ "xnack+x" :: [])⟩ TargetProperties.default =
      some ⟨"gfx1030", "gfx1030_xnack", some true, unknown, unknown⟩ ∧
    Init ⟨none, none⟩ ⟨mkRaw "gfx1030" ([] ++ "sramecc+x" :: [])⟩ TargetProperties.default =
      some ⟨"gfx1030", "gfx1030", unknown, unknown, some true⟩ := by
  decide

/-- C12, amended. For every device part `d` containing no colon, every list of colon-free
suffix tokens, and every colon-free token `u` that does not begin with one of the four
recognized feature tokens `"sramecc+"`, `"sramecc-"`, `"xnack+"`, `"xnack-"`, inserting
`":" ++ u` at any position of the suffix list leaves the descriptor (name, sramecc,
sramecc_reported, xnack and dbId) produced by `Init` unchanged. -/
theorem unrecognized_suffix_ignored (dev arch : Option String) (ha : NoOverride arch)
    (self₁ self₂ : TargetProperties) (d : String) (l₁ l₂ : List String) (u : String)
    (hd : ':' ∉ d.data) (hts : ∀ t ∈ l₁ ++ l₂, ':' ∉ t.data) (hu : ':' ∉ u.data)
    (hnot : ∀ f ∈ featureTokens, ¬ BeginsWith u f) :
    ∃ r, Init ⟨dev, arch⟩ ⟨mkRaw d (l₁ ++ l₂)⟩ self₁ = some r ∧
      Init ⟨dev, arch⟩ ⟨mkRaw d (l₁ ++ u :: l₂)⟩ self₂ = some r := by
  obtain ⟨r, hr, -⟩ := Init_spec ⟨dev, arch⟩ ⟨mkRaw d (l₁ ++ l₂)⟩ self₁
  refine ⟨r, hr, ?_⟩
  rw [← hr]
  have hts₂ : ∀ t ∈ l₁ ++ u :: l₂, ':' ∉ t.data := by
    intro t ht
    rcases List.mem_append.1 ht with h | h
    · exact hts t (List.mem_append_left _ h)
    · rcases List.mem_cons.1 h with h | h
      · exact h ▸ hu
      · exact hts t (List.mem_append_right _ h)
  refine (Init_mkRaw_congr dev arch ha self₁ self₂ d _ _ hd hts hts₂ (fun f hf => ?_)).symm
  constructor
  · rintro ⟨t, ht, hb⟩
    rcases List.mem_append.1 ht with h | h
    · exact ⟨t, List.mem_append_left _ h, hb⟩
    · exact ⟨t, List.mem_append_right _ (List.mem_cons_of_mem _ h), hb⟩
  · rintro ⟨t, ht, hb⟩
    rcases List.mem_append.1 ht with h | h
    · exact ⟨t, List.mem_append_left _ h, hb⟩
    · rcases List.mem_cons.1 h with h | h
      · exact absurd (h ▸ hb) (hnot f hf)
      · exact ⟨t, List.mem_append_right _ h, hb⟩

/-- C12 amended, at concrete inputs: inserting `"foo"` between `"sramecc-"` and `"xnack+"`
after `"gfx906"` leaves the descriptor unchanged. -/
theorem unrecognized_suffix_ignored_witness :
    mkRaw "gfx906" (["sramecc-"] ++ "foo" :: ["xnack+"]) = "gfx906:sramecc-:foo:xnack+" ∧
    ∃ r, Init ⟨none, none⟩ ⟨mkRaw "gfx906" (["sramecc-"] ++ ["xnack+"])⟩
        TargetProperties.default = some r ∧
      Init ⟨none, none⟩ ⟨mkRaw "gfx906" (["sramecc-"] ++ "foo" :: ["xnack+"])⟩
        TargetProperties.default = some r :=
  ⟨by decide,
   unrecognized_suffix_ignored none none (Or.inl rfl) TargetProperties.default
     TargetProperties.default "gfx906" ["sramecc-"] ["xnack+"] "foo" (by decide) (by decide)
     (by decide)
     (fun f hf hb =>
       (by decide : ∀ f ∈ featureTokens, ¬ f.data <+: "foo".data) f hf
         ((beginsWith_iff_data _ _).1 hb))⟩

/-- C13. For every raw identifier that contains no colon at all and whose resolved name is
not `"gfx900"`, `Init` sets `sramecc_reported` equal to the architecture default sramecc
(true for gfx906/gfx908, unknown otherwise). -/
theorem sramecc_reported_no_colon (env : Env) (handle : Handle) (self : TargetProperties)
    (hc : ':' ∉ (Init.rawName env handle).data)
    (h : GetDeviceNameFromMap env (Init.rawName env handle) ≠ some "gfx900") :
    ∃ d, Init env handle self = some d ∧
      GetDeviceNameFromMap env (Init.rawName env handle) = some d.name ∧
      d.sramecc_reported = d.sramecc ∧ d.sramecc = defaultSramecc d.name ∧
      (d.name = "gfx906" ∨ d.name = "gfx908" → d.sramecc_reported = some true) ∧
      (¬ (d.name = "gfx906" ∨ d.name = "gfx908") → d.sramecc_reported = unknown) := by
  obtain ⟨d, hd, hn, hs, -, hr, -⟩ := Init_contains env handle self
  have hne : d.name ≠ "gfx900" := fun e => h (by rw [hn, e])
  have hno : ∀ m : String, ':' ∈ m.data → ¬ Contains (Init.rawName env handle) m := by
    rintro m hm ⟨pre, post, e⟩
    apply hc
    rw [e]
    simp only [String.data_append, List.mem_append]
    exact Or.inl (Or.inr hm)
  have hrep : d.sramecc_reported = d.sramecc :=
    (hr hne).2.2 (hno ":sramecc+" (by decide)) (hno ":sramecc-" (by decide))
  refine ⟨d, hd, hn, hrep, hs, fun hn => ?_, fun hn => ?_⟩
  · rw [hrep, hs, defaultSramecc, if_pos hn]
  · rw [hrep, hs, defaultSramecc, if_neg hn]

/-- C13 at concrete inputs: the colon-free `"gfx908"` has `sramecc_reported` true. -/
theorem sramecc_reported_no_colon_witness :
    ∃ d, Init ⟨none, none⟩ ⟨"gfx908"⟩ TargetProperties.default = some d ∧
      d.name = "gfx908" ∧ d.sramecc_reported = some true := by
  obtain ⟨d, hd, hn, -, -, ht, -⟩ :=
    sramecc_reported_no_colon ⟨none, none⟩ ⟨"gfx908"⟩ TargetProperties.default
      (by decide) (by decide)
  have e : GetDeviceNameFromMap ⟨none, none⟩ "gfx908" = some "gfx908" := by decide
  have hname : d.name = "gfx908" := Option.some.inj (hn.symm.trans e)
  exact ⟨d, hd, hname, ht (Or.inr hname)⟩

/-- C14. Reported and effective sramecc can diverge: with no overrides, raw
`"gfx906:sramecc-"` gives name `"gfx906"`, sramecc true, `sramecc_reported` false, xnack
unknown and dbId `"gfx906"` (no `"_nosramecc"` suffix), and the same holds for
`"gfx908:sramecc-"`. -/
theorem reported_and_effective_diverge (dev arch : Option String) (hd : NoOverride dev)
    (ha : NoOverride arch) (self : TargetProperties) :
    Init ⟨dev, arch⟩ ⟨"gfx906:sramecc-"⟩ self =
      some { name := "gfx906", sramecc := some true, sramecc_reported := some false,
             xnack := unknown, dbId := "gfx906" } ∧
    Init ⟨dev, arch⟩ ⟨"gfx908:sramecc-"⟩ self =
      some { name := "gfx908", sramecc := some true, sramecc_reported := some false,
             xnack := unknown, dbId := "gfx908" } ∧
    ∃ d, Init ⟨dev, arch⟩ ⟨"gfx906:sramecc-"⟩ self = some d ∧
      d.sramecc ≠ d.sramecc_reported := by
  rw [Init_default _ ⟨"gfx906:sramecc-"⟩ self, Init_default _ ⟨"gfx908:sramecc-"⟩ self]
  rcases hd with hd | hd <;> rcases ha with ha | ha <;> subst hd <;> subst ha <;> decide

/-- C14 with both environment variables absent. -/
theorem reported_and_effective_diverge_witness :
    Init ⟨none, none⟩ ⟨"gfx906:sramecc-"⟩ TargetProperties.default =
      some { name := "gfx906", sramecc := some true, sramecc_reported := some false,
             xnack := unknown, dbId := "gfx906" } :=
  (reported_and_effective_diverge none none (Or.inl rfl) (Or.inl rfl)
    TargetProperties.default).1

/-- C15. Alias scenarios: for each of the 13 alias-table entries `(k, c)`, `Init` on
raw `k` with no overrides yields name `c`, sramecc, `sramecc_reported` and xnack unknown,
and dbId `c`; the entries are the ten aliases of `"gfx803"`, the two of `"gfx900"` and
the one of `"gfx1030"`. -/
theorem alias_scenarios (dev arch : Option String) (hd : NoOverride dev)
    (ha : NoOverride arch) (self : TargetProperties) :
    (∀ e ∈ device_name_map, Init ⟨dev, arch⟩ ⟨e.1⟩ self =
      some { name := e.2, sramecc := unknown, sramecc_reported := unknown,
             xnack := unknown, dbId := e.2 }) ∧
    device_name_map =
      (["Ellesmere", "Baffin", "RacerX", "Polaris10", "Polaris11", "Tonga", "Fiji",
        "gfx800", "gfx802", "gfx804"].map (fun k => (k, "gfx803"))) ++
      (["Vega10", "gfx901"].map (fun k => (k, "gfx900"))) ++
      [("10.3.0 Sienna_Cichlid 18", "gfx1030")] := by
  refine ⟨fun e he => ?_, rfl⟩
  rw [Init_default]
  revert e
  rcases hd with hd | hd <;> rcases ha with ha | ha <;> subst hd <;> subst ha <;> decide

/-- C15 at the concrete inputs `"Ellesmere"` and `"10.3.0 Sienna_Cichlid 18"`. -/
theorem alias_scenarios_witness :
    Init ⟨none, none⟩ ⟨"Ellesmere"⟩ TargetProperties.default =
      some { name := "gfx803", sramecc := unknown, sramecc_reported := unknown,
             xnack := unknown, dbId := "gfx803" } ∧
    Init ⟨none, none⟩ ⟨"10.3.0 Sienna_Cichlid 18"⟩ TargetProperties.default =
      some { name := "gfx1030", sramecc := unknown, sramecc_reported := unknown,
             xnack := unknown, dbId := "gfx1030" } :=
  ⟨(alias_scenarios none none (Or.inl rfl) (Or.inl rfl) TargetProperties.default).1
      ("Ellesmere", "gfx803") (by decide),
   (alias_scenarios none none (Or.inl rfl) (Or.inl rfl) TargetProperties.default).1
      ("10.3.0 Sienna_Cichlid 18", "gfx1030") (by decide)⟩

/-- C16. No failure on any string content: for every raw string, the empty one and those
without a colon included, the substring extraction `substr(0, find(':'))` is never out of
range, the Name Resolver and `Init` return, and with no overrides the empty raw string
resolves to the empty name, with all three flags unknown and dbId `""`. -/
theorem no_failure (env : Env) (raw : String) (handle : Handle) (self : TargetProperties) :
    (∃ p, substr raw 0 (find_char raw ':') = some p) ∧
    (∃ n, GetDeviceNameFromMap env raw = some n) ∧
    (∃ d, Init env handle self = some d) ∧
    (NoOverride env.MIOPEN_DEBUG_ENFORCE_DEVICE →
      GetDeviceNameFromMap env "" = some "" ∧
      (NoOverride env.MIOPEN_DEVICE_ARCH →
        Init env ⟨""⟩ self =
          some { name := "", sramecc := unknown, sramecc_reported := unknown,
                 xnack := unknown, dbId := "" })) := by
  refine ⟨⟨_, substr_find_char raw⟩, ⟨_, GetDeviceNameFromMap_eq env raw⟩, ?_, fun hd => ?_⟩
  · obtain ⟨d, hd, -⟩ := Init_spec env handle self
    exact ⟨d, hd⟩
  · obtain ⟨dev, arch⟩ := env
    simp only at hd
    constructor
    · rw [GetDeviceNameFromMap_eq, NameResolver_of_noOverride _ _ hd]
      decide
    · intro ha
      simp only at ha
      rw [Init_default]
      rcases hd with hd | hd <;> rcases ha with ha | ha <;> subst hd <;> subst ha <;> decide

/-- C16 at concrete inputs: the empty string and a string without a colon. -/
theorem no_failure_witness :
    substr "" 0 (find_char "" ':') = some "" ∧
    substr "gfx1030" 0 (find_char "gfx1030" ':') = some "gfx1030" ∧
    Init ⟨none, none⟩ ⟨""⟩ TargetProperties.default =
      some { name := "", sramecc := unknown, sramecc_reported := unknown,
             xnack := unknown, dbId := "" } :=
  ⟨by decide, by decide,
   ((no_failure ⟨none, none⟩ "" ⟨""⟩ TargetProperties.default).2.2.2 (Or.inl rfl)).2
     (Or.inl rfl)⟩

/-- C17. For every raw string and every override setting, the dbId of the descriptor
produced by `Init` is exactly the name if xnack is not true and exactly the name followed
by `"_xnack"` if xnack is true: neither `"_sramecc"` nor `"_nosramecc"` is appended,
because the effective sramecc is true exactly for gfx906/gfx908 and unknown otherwise. -/
theorem Init_dbId_no_sramecc_suffix (env : Env) (handle : Handle) (self : TargetProperties) :
    ∃ d, Init env handle self = some d ∧
      (d.xnack ≠ some true → d.dbId = d.name) ∧
      (d.xnack = some true → d.dbId = d.name ++ "_xnack") ∧
      KeyBuilder.S d.name d.sramecc = "" ∧
      (d.sramecc = some true ↔ (d.name = "gfx906" ∨ d.name = "gfx908")) ∧
      (d.sramecc = unknown ↔ ¬ (d.name = "gfx906" ∨ d.name = "gfx908")) := by
  obtain ⟨d, hd, -, hs, -, -, hk⟩ := Init_spec env handle self
  have hS : KeyBuilder.S d.name d.sramecc = "" := by
    rw [hs]
    unfold KeyBuilder.S
    by_cases hn : d.name = "gfx906" ∨ d.name = "gfx908" <;> simp [hn]
  refine ⟨d, hd, fun hx => ?_, fun hx => ?_, hS, ?_, ?_⟩
  · rw [hk, KeyBuilder, hS, KeyBuilder.X, if_neg hx]
    simp
  · rw [hk, KeyBuilder, hS, KeyBuilder.X, if_pos hx]
    simp
  · rw [hs]
    by_cases hn : d.name = "gfx906" ∨ d.name = "gfx908" <;> simp [hn]
  · rw [hs]
    by_cases hn : d.name = "gfx906" ∨ d.name = "gfx908" <;> simp [hn]

/-- C17 at concrete inputs: `"gfx908:sramecc-:xnack+"` has dbId `"gfx908_xnack"` and
`"gfx1030:sramecc+"` has dbId `"gfx1030"`. -/
theorem Init_dbId_no_sramecc_suffix_witness :
    (∃ d, Init ⟨none, none⟩ ⟨"gfx908:sramecc-:xnack+"⟩ TargetProperties.default = some d ∧
      d.dbId = "gfx908_xnack") ∧
    (∃ d, Init ⟨none, none⟩ ⟨"gfx1030:sramecc+"⟩ TargetProperties.default = some d ∧
      d.dbId = "gfx1030") := by
  constructor
  · obtain ⟨d, hd, -, hx, -⟩ :=
      Init_dbId_no_sramecc_suffix ⟨none, none⟩ ⟨"gfx908:sramecc-:xnack+"⟩
        TargetProperties.default
    have e : Init ⟨none, none⟩ ⟨"gfx908:sramecc-:xnack+"⟩ TargetProperties.default =
        some ⟨"gfx908", "gfx908_xnack", some true, some true, some false⟩ := by decide
    have q := Option.some.inj (hd.symm.trans e)
    refine ⟨d, hd, ?_⟩
    rw [hx (by rw [q]), q]
    decide
  · obtain ⟨d, hd, hx, -⟩ :=
      Init_dbId_no_sramecc_suffix ⟨none, none⟩ ⟨"gfx1030:sramecc+"⟩ TargetProperties.default
    have e : Init ⟨none, none⟩ ⟨"gfx1030:sramecc+"⟩ TargetProperties.default =
        some ⟨"gfx1030", "gfx1030", unknown, unknown, some true⟩ := by decide
    have q := Option.some.inj (hd.symm.trans e)
    refine ⟨d, hd, ?_⟩
    rw [hx (by rw [q]; decide), q]

/-- C18, as stated, fails: the key does not tell false from unknown (xnack false and xnack
unknown both give `"gfx1030"`; sramecc false and sramecc unknown both give
`"gfx906_nosramecc"`), and it does not tell a name that ends in a suffix from the suffix
being appended (`"gfx900_xnack"` with xnack unknown and `"gfx900"` with xnack true). -/
theorem key_not_injective_counterexample :
    (KeyBuilder "gfx1030" unknown (some false) = KeyBuilder "gfx1030" unknown unknown ∧
      (InitDbId ⟨"gfx1030", "", some false, unknown, unknown⟩).dbId =
        (InitDbId ⟨"gfx1030", "", unknown, unknown, unknown⟩).dbId ∧
      (some false : Option Bool) ≠ unknown) ∧
    (KeyBuilder "gfx906" (some false) unknown = KeyBuilder "gfx906" unknown unknown ∧
      (some false : Option Bool) ≠ unknown) ∧
    (KeyBuilder "gfx900_xnack" unknown unknown = KeyBuilder "gfx900" unknown (some true) ∧
      (InitDbId ⟨"gfx900_xnack", "", unknown, unknown, unknown⟩).dbId =
        (InitDbId ⟨"gfx900", "", some true, unknown, unknown⟩).dbId ∧
      "gfx900_xnack" ≠ "gfx900") ∧
    ¬ (∀ (n₁ n₂ : String) (s₁ s₂ x₁ x₂ : Option Bool),
        KeyBuilder n₁ s₁ x₁ = KeyBuilder n₂ s₂ x₂ → n₁ = n₂ ∧ s₁ = s₂ ∧ x₁ = x₂) := by
  refine ⟨by decide, by decide, by decide, fun h => ?_⟩
  exact absurd (h "gfx900_xnack" "gfx900" unknown unknown unknown (some true) (by decide)).1
    (by decide)

/-- C18, amended. For all names `n₁`, `n₂` that do not end in `"_xnack"`, `"_sramecc"` or
`"_nosramecc"` and all tri-state values, if the keys built by `InitDbId` are equal then
the names are equal, sramecc is true in both or in neither, and xnack is true in both or
in neither; false and unknown are not told apart. -/
theorem key_determines_name_and_true_flags (n₁ n₂ b₁ b₂ : String)
    (s₁ s₂ x₁ x₂ r₁ r₂ : Option Bool) (h₁ : NoFeatureSuffix n₁) (h₂ : NoFeatureSuffix n₂)
    (h : (InitDbId ⟨n₁, b₁, x₁, s₁, r₁⟩).dbId = (InitDbId ⟨n₂, b₂, x₂, s₂, r₂⟩).dbId) :
    KeyBuilder n₁ s₁ x₁ = KeyBuilder n₂ s₂ x₂ ∧
    n₁ = n₂ ∧ (s₁ = some true ↔ s₂ = some true) ∧ (x₁ = some true ↔ x₂ = some true) := by
  rw [InitDbId_eq_KeyBuilder, InitDbId_eq_KeyBuilder] at h
  simp only at h
  refine ⟨h, ?_⟩
  unfold KeyBuilder at h
  rw [String.append_assoc, String.append_assoc] at h
  obtain ⟨hn, hT⟩ := name_eq_of_append_keySuffix n₁ n₂ _ _ h₁ h₂
    (keySuffix_mem n₁ s₁ x₁) (keySuffix_mem n₂ s₂ x₂) h
  subst hn
  exact ⟨rfl, flags_of_keySuffix n₁ s₁ s₂ x₁ x₂ hT⟩

/-- C18 amended, at concrete inputs: for `"gfx1030"` with xnack true, sramecc false and
sramecc unknown give the same key, and neither is true. -/
theorem key_determines_name_and_true_flags_witness :
    NoFeatureSuffix "gfx1030" ∧
    KeyBuilder "gfx1030" (some false) (some true) = KeyBuilder "gfx1030" unknown (some true) ∧
    "gfx1030" = "gfx1030" ∧ ((some false : Option Bool) = some true ↔ unknown = some true) ∧
    ((some true : Option Bool) = some true ↔ (some true : Option Bool) = some true) :=
  have hn : NoFeatureSuffix "gfx1030" :=
    ⟨fun h => absurd ((endsWith_iff_data _ _).1 h) (by decide),
     fun h => absurd ((endsWith_iff_data _ _).1 h) (by decide),
     fun h => absurd ((endsWith_iff_data _ _).1 h) (by decide)⟩
  ⟨hn, key_determines_name_and_true_flags "gfx1030" "gfx1030" "" "" (some false) unknown
    (some true) (some true) unknown unknown hn hn (by decide)⟩

/-- C19. Conflicting markers resolve to true regardless of position: for every raw string
that contains both `":xnack+"` and `":xnack-"`, `Init` sets xnack to true; and for every
raw string that contains both `":sramecc+"` and `":sramecc-"` and whose resolved name is
not `"gfx900"`, `Init` sets `sramecc_reported` to true. -/
theorem conflicting_markers_true (env : Env) (handle : Handle) (self : TargetProperties) :
    ∃ d, Init env handle self = some d ∧
      GetDeviceNameFromMap env (Init.rawName env handle) = some d.name ∧
      (Contains (Init.rawName env handle) ":xnack+" →
        Contains (Init.rawName env handle) ":xnack-" → d.xnack = some true) ∧
      (Contains (Init.rawName env handle) ":sramecc+" →
        Contains (Init.rawName env handle) ":sramecc-" → d.name ≠ "gfx900" →
        d.sramecc_reported = some true) := by
  obtain ⟨d, hd, hn, -, -, hr, hx, -⟩ := Init_contains env handle self
  exact ⟨d, hd, hn, fun hp _ => hx hp, fun hp _ hne => (hr hne).1 hp⟩

/-- C19 at concrete inputs: with the minus markers first, and with the plus markers first,
both flags are true. -/
theorem conflicting_markers_true_witness :
    (∃ d, Init ⟨none, none⟩ ⟨"gfx906:xnack-:sramecc-:xnack+:sramecc+"⟩
        TargetProperties.default = some d ∧
      d.xnack = some true ∧ d.sramecc_reported = some true) ∧
    Init ⟨none, none⟩ ⟨"gfx906:xnack+:sramecc+:xnack-:sramecc-"⟩ TargetProperties.default =
      some { name := "gfx906", sramecc := some true, sramecc_reported := some true,
             xnack := some true, dbId := "gfx906_xnack" } := by
  constructor
  · obtain ⟨d, hd, hn, hx, hr⟩ :=
      conflicting_markers_true ⟨none, none⟩ ⟨"gfx906:xnack-:sramecc-:xnack+:sramecc+"⟩
        TargetProperties.default
    have e : GetDeviceNameFromMap ⟨none, none⟩ "gfx906:xnack-:sramecc-:xnack+:sramecc+" =
        some "gfx906" := by decide
    have hname : d.name = "gfx906" := Option.some.inj (hn.symm.trans e)
    refine ⟨d, hd, hx ⟨"gfx906:xnack-:sramecc-", ":sramecc+", by decide⟩
      ⟨"gfx906", ":sramecc-:xnack+:sramecc+", by decide⟩,
      hr ⟨"gfx906:xnack-:sramecc-:xnack+", "", by decide⟩
        ⟨"gfx906:xnack-", ":xnack+:sramecc+", by decide⟩ ?_⟩
    rw [hname]
    decide
  · decide

/-- C20. `MaxWaveScratchSize` is a fixed constant: it equals
`(256 * 4) * (2 ^ 13 - 1) = 8387584`; the subexpression `(1 << 13) - 1 = 8191` does not
overflow a 32-bit signed `int`, and the product does not overflow a 64-bit or a 32-bit
unsigned size. -/
theorem MaxWaveScratchSize_value :
    MaxWaveScratchSize.mask = some 8191 ∧
    MaxWaveScratchSize 64 = some 8387584 ∧
    MaxWaveScratchSize 32 = some 8387584 ∧
    (256 * 4) * (2 ^ 13 - 1) = 8387584 ∧
    (-2 ^ 31 ≤ (1 : Int) * 2 ^ 13 ∧ (1 : Int) * 2 ^ 13 ≤ 2 ^ 31 - 1) ∧
    (256 * 4) * (2 ^ 13 - 1) < 2 ^ 32 ∧ (256 * 4) * (2 ^ 13 - 1) < 2 ^ 64 := by
  refine ⟨by decide, by decide, by decide, by decide, by decide, by decide, by decide⟩

end miopen
